import Mathlib

/-!
Verification of the FIMS dashboard core (`src/components/FIMSDashboard.tsx`):
the inspection record model, the multi-axis filter (`getFilteredInspections`),
the aggregation counters (`getStatusCounts`, `getCompletionRate`), the
status display mappings (`getStatusText`, `getStatusColor`), and the
lifecycle handlers (`handleConfirmRevisit`, `handleCompleteInspection`).

Conventions of the embedding:
* JavaScript strings are Lean `String`; `toLowerCase`/`toUpperCase` are
  modelled character-wise by `jsToLower`/`jsToUpper`, and
  `String.prototype.includes` by an explicit substring scan (`strIncludes`).
* Nullable fields (`string | null`) are `Option String`; JavaScript
  truthiness of such values (both `null` and `""` are falsy) is made
  explicit at each use site.
* The i18next translation function `t(key, defaultValue)` is modelled by a
  finite association list of translations plus the default.
* `Date.prototype.toLocaleDateString` is an external, locale-dependent
  formatter; it is taken as an abstract parameter `fmtDate : String → String`.
* JavaScript numbers: record counts are list lengths (exact in an IEEE
  double up to 2^53); the one non-exact operation, the completion-rate
  computation `Math.round((completed / total) * 100)`, is modelled by an
  explicit IEEE-754 binary64 round-to-nearest-even model over exact
  rationals (normal range only, which covers every quotient that can arise
  from a record list of physically realizable length).
-/

namespace FIMS

/-- JavaScript `needle` is a prefix of `hay`, on character lists. -/
def startsWithChars : List Char → List Char → Bool
  | [], _ => true
  | _ :: _, [] => false
  | n :: ns, h :: hs => n == h && startsWithChars ns hs

/-- JavaScript substring containment on character lists: `needle` occurs
contiguously somewhere in `hay` (the empty needle occurs everywhere). -/
def containsChars (needle : List Char) : List Char → Bool
  | [] => startsWithChars needle []
  | h :: hs => startsWithChars needle (h :: hs) || containsChars needle hs

/-- Model of `hay.includes(needle)` from JavaScript. -/
def strIncludes (hay needle : String) : Bool :=
  containsChars needle.data hay.data

/-- Model of JavaScript `toLowerCase`: character-wise lowering (a
kernel-computable equivalent of `String.toLower`). -/
def jsToLower (s : String) : String := ⟨s.data.map Char.toLower⟩

/-- Model of JavaScript `toUpperCase`: character-wise raising (a
kernel-computable equivalent of `String.toUpper`). -/
def jsToUpper (s : String) : String := ⟨s.data.map Char.toUpper⟩

/-- Model of the i18next translation function `t(key, defaultValue)`: the
translation resources are a finite association list; a missing key yields
the supplied default. -/
def translate (tr : List (String × String)) (key fallback : String) : String :=
  match List.lookup key tr with
  | some v => v
  | none => fallback

/-- Model of the JavaScript `a || b` fallback chain on nullable strings:
`null` and the empty string are falsy. Used for
`inspection.inspection_date || inspection.planned_date`. -/
def jsOrString (a b : Option String) : Option String :=
  match a with
  | some s => if s == "" then b else some s
  | none => b

/-- The `InspectionPhoto` interface of `FIMSDashboard.tsx`. -/
structure InspectionPhoto where
  id : String
  photo_url : String
  photo_name : Option String
  description : Option String
  photo_order : Int
  uploaded_at : String
deriving DecidableEq, Repr

/-- The `Inspection` interface of `FIMSDashboard.tsx`. Opaque payloads
(`form_data`, `anganwadi_forms`) are uninterpreted strings; the
latitude/longitude numbers are uninterpreted exact rationals (the dashboard
core never computes with them). -/
structure Inspection where
  id : String
  inspection_number : String
  category_id : String
  inspector_id : String
  location_name : String
  latitude : Option ℚ
  longitude : Option ℚ
  address : Option String
  planned_date : Option String
  inspection_date : Option String
  status : String
  form_data : String
  is_compliant : Option Bool
  requires_revisit : Bool
  created_at : String
  updated_at : String
  filled_by_name : Option String
  anganwadi_forms : Option String
  photos : List InspectionPhoto
deriving DecidableEq, Repr

/-- The `Category` interface of `FIMSDashboard.tsx`. -/
structure Category where
  id : String
  name : String
  name_marathi : String
  description : String
  form_type : String
  is_active : Bool
deriving DecidableEq, Repr

/-- The `columnFilters` state object of the dashboard. -/
structure ColumnFilters where
  inspectionNumber : String
  location : String
  category : String
  status : String
  date : String
  filled_by_name : String
deriving DecidableEq, Repr

/-- `getStatusText` (FIMSDashboard.tsx:375-377):
`t(\x7bstatuses.$\x7bstatus\x7d\x7d, status.toUpperCase())`. -/
def getStatusText (tr : List (String × String)) (status : String) : String :=
  translate tr ("statuses." ++ status) (jsToUpper status)

/-- `getStatusColor` (FIMSDashboard.tsx:355-373), the status → visual-tier
switch with its fall-through case groups and default branch. -/
def getStatusColor (status : String) : String :=
  if status == "approved" || status == "completed" then
    "bg-gradient-to-r from-emerald-500 to-teal-500 text-white"
  else if status == "submitted" || status == "under_review" then
    "bg-gradient-to-r from-blue-500 to-cyan-500 text-white"
  else if status == "draft" || status == "pending" then
    "bg-gradient-to-r from-slate-400 to-slate-500 text-white"
  else if status == "rejected" then
    "bg-gradient-to-r from-rose-500 to-red-500 text-white"
  else if status == "reassigned" then
    "bg-gradient-to-r from-violet-500 to-purple-500 text-white"
  else
    "bg-gradient-to-r from-slate-400 to-slate-500 text-white"

/-- The resolved, localized display name of a record's category
(FIMSDashboard.tsx:319-320): look the category up by id; if found, translate
`categories.<form_type>` with the category's `name` as default; a dangling
`category_id` falls back to the empty string. -/
def categoryDisplayName (tr : List (String × String)) (categories : List Category)
    (i : Inspection) : String :=
  match categories.find? (fun c => c.id == i.category_id) with
  | some c => translate tr ("categories." ++ c.form_type) c.name
  | none => ""

/-- Search axis (FIMSDashboard.tsx:306-308): empty `searchTerm` matches
everything, otherwise case-insensitive substring match against
`location_name` or `inspection_number`. -/
def matchesSearchAxis (searchTerm : String) (i : Inspection) : Bool :=
  searchTerm == "" ||
    strIncludes (jsToLower i.location_name) (jsToLower searchTerm) ||
    strIncludes (jsToLower i.inspection_number) (jsToLower searchTerm)

/-- Category dropdown axis (FIMSDashboard.tsx:310): exact `category_id` match. -/
def matchesCategoryAxis (selectedCategory : String) (i : Inspection) : Bool :=
  selectedCategory == "" || i.category_id == selectedCategory

/-- Status dropdown axis (FIMSDashboard.tsx:311): exact `status` match. -/
def matchesStatusAxis (selectedStatus : String) (i : Inspection) : Bool :=
  selectedStatus == "" || i.status == selectedStatus

/-- Inspection-number column axis (FIMSDashboard.tsx:313-314). -/
def matchesInspectionNumberAxis (f : String) (i : Inspection) : Bool :=
  f == "" || strIncludes (jsToLower i.inspection_number) (jsToLower f)

/-- Location column axis (FIMSDashboard.tsx:316-317). -/
def matchesLocationAxis (f : String) (i : Inspection) : Bool :=
  f == "" || strIncludes (jsToLower i.location_name) (jsToLower f)

/-- Category column axis (FIMSDashboard.tsx:319-322): case-insensitive
substring match against the resolved localized category name. -/
def matchesCategoryColumnAxis (tr : List (String × String)) (categories : List Category)
    (f : String) (i : Inspection) : Bool :=
  f == "" || strIncludes (jsToLower (categoryDisplayName tr categories i)) (jsToLower f)

/-- Status column axis (FIMSDashboard.tsx:324-325): case-insensitive
substring match against the resolved status label. -/
def matchesStatusColumnAxis (tr : List (String × String)) (f : String)
    (i : Inspection) : Bool :=
  f == "" || strIncludes (jsToLower (getStatusText tr i.status)) (jsToLower f)

/-- Date column axis (FIMSDashboard.tsx:327-329): the displayed date is
`inspection_date || planned_date`; a non-empty filter requires a truthy date
whose locale-formatted string contains the filter. Note that the source
applies no `toLowerCase()` on this axis: the substring match is
case-sensitive, unlike every other column axis. -/
def matchesDateAxis (fmtDate : String → String) (f : String) (i : Inspection) : Bool :=
  f == "" ||
    (match jsOrString i.inspection_date i.planned_date with
     | some d => !(d == "") && strIncludes (fmtDate d) f
     | none => false)

/-- Filled-by column axis (FIMSDashboard.tsx:331-332): a `null` name is
falsy, so a non-empty filter excludes such records. -/
def matchesFilledByAxis (f : String) (i : Inspection) : Bool :=
  f == "" ||
    (match i.filled_by_name with
     | some n => strIncludes (jsToLower n) (jsToLower f)
     | none => false)

/-- `getFilteredInspections` (FIMSDashboard.tsx:304-338): `Array.filter`
over the record set with the conjunction of all nine filter axes, mirroring
the source's let-bound per-axis booleans. -/
def getFilteredInspections (tr : List (String × String)) (fmtDate : String → String)
    (categories : List Category) (searchTerm selectedCategory selectedStatus : String)
    (columnFilters : ColumnFilters) (inspections : List Inspection) : List Inspection :=
  inspections.filter fun inspection =>
    let matchesSearch := searchTerm == "" ||
      strIncludes (jsToLower inspection.location_name) (jsToLower searchTerm) ||
      strIncludes (jsToLower inspection.inspection_number) (jsToLower searchTerm)
    let matchesCategory := selectedCategory == "" || inspection.category_id == selectedCategory
    let matchesStatus := selectedStatus == "" || inspection.status == selectedStatus
    let matchesInspectionNumber := columnFilters.inspectionNumber == "" ||
      strIncludes (jsToLower inspection.inspection_number) (jsToLower columnFilters.inspectionNumber)
    let matchesLocation := columnFilters.location == "" ||
      strIncludes (jsToLower inspection.location_name) (jsToLower columnFilters.location)
    let categoryName :=
      match categories.find? (fun c => c.id == inspection.category_id) with
      | some c => translate tr ("categories." ++ c.form_type) c.name
      | none => ""
    let matchesCategoryFilter := columnFilters.category == "" ||
      strIncludes (jsToLower categoryName) (jsToLower columnFilters.category)
    let matchesStatusFilter := columnFilters.status == "" ||
      strIncludes (jsToLower (getStatusText tr inspection.status)) (jsToLower columnFilters.status)
    let inspectionDate := jsOrString inspection.inspection_date inspection.planned_date
    let matchesDateFilter := columnFilters.date == "" ||
      (match inspectionDate with
       | some d => !(d == "") && strIncludes (fmtDate d) columnFilters.date
       | none => false)
    let matchesFilledBy := columnFilters.filled_by_name == "" ||
      (match inspection.filled_by_name with
       | some n => strIncludes (jsToLower n) (jsToLower columnFilters.filled_by_name)
       | none => false)
    matchesSearch && matchesCategory && matchesStatus &&
      matchesInspectionNumber && matchesLocation && matchesCategoryFilter &&
      matchesStatusFilter && matchesDateFilter && matchesFilledBy

/-- The conjunction of the nine filter axes, as independent predicates. -/
def passesAllAxes (tr : List (String × String)) (fmtDate : String → String)
    (categories : List Category) (searchTerm selectedCategory selectedStatus : String)
    (cf : ColumnFilters) (i : Inspection) : Bool :=
  matchesSearchAxis searchTerm i && matchesCategoryAxis selectedCategory i &&
    matchesStatusAxis selectedStatus i &&
    matchesInspectionNumberAxis cf.inspectionNumber i && matchesLocationAxis cf.location i &&
    matchesCategoryColumnAxis tr categories cf.category i &&
    matchesStatusColumnAxis tr cf.status i &&
    matchesDateAxis fmtDate cf.date i && matchesFilledByAxis cf.filled_by_name i

/-- The `columnFilters` initial state: every per-column filter empty. -/
def emptyColumnFilters : ColumnFilters :=
  { inspectionNumber := "", location := "", category := ""
    status := "", date := "", filled_by_name := "" }

/-- The counters returned by `getStatusCounts`. -/
structure StatusCounts where
  total : ℕ
  pending : ℕ
  completed : ℕ
  submitted : ℕ
deriving DecidableEq, Repr

/-- `getStatusCounts` (FIMSDashboard.tsx:340-347): counts over the
unfiltered record set. -/
def getStatusCounts (inspections : List Inspection) : StatusCounts :=
  { total := inspections.length
    pending := (inspections.filter fun i =>
      (["planned", "in_progress", "draft"] : List String).contains i.status).length
    completed := (inspections.filter fun i => i.status == "approved").length
    submitted := (inspections.filter fun i => i.status == "submitted").length }

/-! IEEE-754 binary64 model, normal range. A nonnegative double is a
significand/binade pair `⟨m, e⟩` denoting `m * 2^(e-52)`; rounding a
fraction `a / b` to the nearest double finds the binade `e` with
`2^e ≤ a/b < 2^(e+1)` from the bit lengths of `a` and `b`, scales the
fraction so the significand lands in `[2^52, 2^53]`, and rounds it to the
nearest integer with ties to even. Subnormals and overflow are irrelevant
here: the modelled computation only sees quotients
`completed/total ∈ (0, 1]` and their products with 100. All arithmetic is
on exact naturals so that concrete instances evaluate by `decide`. -/

/-- Binary logarithm by structural recursion on a fuel argument. -/
def log2Nat : ℕ → ℕ → ℕ
  | 0, _ => 0
  | fuel + 1, n => if n < 2 then 0 else log2Nat fuel (n / 2) + 1

/-- The floor binary logarithm of a natural number. -/
def natLog2 (n : ℕ) : ℕ := log2Nat n n

/-- The binade of the fraction `a / b`: the unique `e` with
`2^e ≤ a/b < 2^(e+1)` (for `a, b ≠ 0`), from the bit lengths of `a` and
`b`. -/
def binadeOf (a b : ℕ) : ℤ :=
  if b * 2 ^ natLog2 a ≤ a * 2 ^ natLog2 b
  then (natLog2 a : ℤ) - natLog2 b
  else (natLog2 a : ℤ) - natLog2 b - 1

/-- Round the fraction `n / b` to the nearest natural number, ties to
even. -/
def rneNat (n b : ℕ) : ℕ :=
  if 2 * (n % b) < b then n / b
  else if b < 2 * (n % b) then n / b + 1
  else if (n / b) % 2 = 0 then n / b else n / b + 1

/-- A nonnegative binary64 value: significand `m` at binade `e`, denoting
`m * 2^(e-52)`. -/
structure F64 where
  m : ℕ
  e : ℤ
deriving DecidableEq, Repr

/-- The exact rational value of a modelled double. -/
def F64.toRat (x : F64) : ℚ := (x.m : ℚ) * 2 ^ (x.e - 52)

/-- The binary64 double nearest to the fraction `a / b` (round to nearest,
ties to even): IEEE division of the exactly-representable operands `a` and
`b` is correctly rounded, so this is the double `a / b` computes. -/
def flFrac (a b : ℕ) : F64 :=
  if a = 0 then ⟨0, 0⟩
  else
    let e := binadeOf a b
    ⟨rneNat (a * 2 ^ (52 - e).toNat) (b * 2 ^ (e - 52).toNat), e⟩

/-- The binary64 product `x * 100` (correctly rounded): the exact product
`x.m * 100 * 2^(x.e-52)` written as a fraction of naturals and re-rounded. -/
def jsMul100 (x : F64) : F64 :=
  flFrac (x.m * 100 * 2 ^ (x.e - 52).toNat) (2 ^ (52 - x.e).toNat)

/-- ECMAScript `Math.round` on the exact value of a double: the closest
integer, ties toward positive infinity. -/
def mathRound (x : ℚ) : ℤ := ⌊x + 1/2⌋

/-- `getCompletionRate` (FIMSDashboard.tsx:349-353):
`total === 0 ? 0 : Math.round((completed / total) * 100)`, with the
division and the multiplication by 100 performed in binary64 (counts are
exact doubles). -/
def getCompletionRate (inspections : List Inspection) : ℤ :=
  let c := getStatusCounts inspections
  if c.total = 0 then 0
  else mathRound (jsMul100 (flFrac c.completed c.total)).toRat

/-- A store interaction issued by a lifecycle handler. -/
inductive StoreCall where
  | reassign (inspectionId inspectorId : String)
  | refetchAll
deriving DecidableEq, Repr

/-- Observable outcome of the revisit confirmation handler: the validation
error surfaced to the user (if any), the store interactions performed, and
the resulting record set. -/
structure RevisitOutcome where
  validationError : Option String
  storeCalls : List StoreCall
  store : List Inspection
deriving Repr

/-- `handleConfirmRevisit` (FIMSDashboard.tsx:257-275): a falsy
`selectedInspector` is rejected with an error message before any store
interaction; otherwise the reassignment is issued (its effect on the record
set is the external store's, abstracted as `reassignOp`) followed by a full
refetch. -/
def handleConfirmRevisit (reassignOp : String → String → List Inspection → List Inspection)
    (revisitInspectionId selectedInspector : String) (store : List Inspection) :
    RevisitOutcome :=
  if selectedInspector == "" then
    { validationError := some "Please select an inspector for revisit"
      storeCalls := []
      store := store }
  else
    { validationError := none
      storeCalls := [StoreCall.reassign revisitInspectionId selectedInspector,
                     StoreCall.refetchAll]
      store := reassignOp revisitInspectionId selectedInspector store }

/-- The store effect of `handleCompleteInspection` (FIMSDashboard.tsx:231-249):
`update(\x7b status: approved \x7d).eq(id, inspectionId)` — a row update
that sets `status` on every record whose id matches and leaves every other
field and every other record untouched. -/
def completeInspectionUpdate (inspectionId : String) (store : List Inspection) :
    List Inspection :=
  store.map fun r => if r.id == inspectionId then { r with status := "approved" } else r

/-- Everything the dashboard derives from the record set and the active
filter criteria in one render: the filtered rows and the summary counters. -/
structure DashboardView where
  rows : List Inspection
  counts : StatusCounts
  completionRate : ℤ
deriving Repr

/-- One dashboard render: the filtered table together with the aggregation
counters, both derived from the same record set
(FIMSDashboard.tsx:304-353). -/
def dashboardView (tr : List (String × String)) (fmtDate : String → String)
    (categories : List Category) (searchTerm selectedCategory selectedStatus : String)
    (cf : ColumnFilters) (inspections : List Inspection) : DashboardView :=
  { rows := getFilteredInspections tr fmtDate categories
      searchTerm selectedCategory selectedStatus cf inspections
    counts := getStatusCounts inspections
    completionRate := getCompletionRate inspections }

/-- A concrete inspection record used for witnesses and counterexamples. -/
def sampleInspection (idv status : String) : Inspection :=
  { id := idv
    inspection_number := "FIMS-2025-" ++ idv
    category_id := "cat-1"
    inspector_id := "user-1"
    location_name := "Village Site A"
    latitude := none
    longitude := none
    address := none
    planned_date := none
    inspection_date := none
    status := status
    form_data := ""
    is_compliant := none
    requires_revisit := false
    created_at := "2025-01-01"
    updated_at := "2025-01-02"
    filled_by_name := some "Asha Patil"
    anganwadi_forms := none
    photos := [] }

/-- The date-column axis as the specification words it (claim C5): a
case-insensitive substring match against the locale-formatted date string
of `inspection_date` falling back to `planned_date`. Stated from the
spec's words for comparison with the source's `matchesDateAxis`. -/
def matchesDateAxisSpecWording (fmtDate : String → String) (f : String)
    (i : Inspection) : Bool :=
  f == "" ||
    (match jsOrString i.inspection_date i.planned_date with
     | some d => !(d == "") && strIncludes (jsToLower (fmtDate d)) (jsToLower f)
     | none => false)

/-- A record carrying a concrete inspection date. -/
def sampleDatedInspection : Inspection :=
  { sampleInspection "dated" "draft" with inspection_date := some "2026-10-11" }

/-- A record set with 23 approved records out of 40: the completion
percentage is exactly 57.5. -/
def rate23of40Records : List Inspection :=
  List.replicate 23 (sampleInspection "a" "approved")
    ++ List.replicate 17 (sampleInspection "d" "draft")

end FIMS

namespace FIMS

/-- Claim C10: `getStatusColor` (the status → visual-weight mapping) sends
`planned` and `in_progress` to the neutral default tier — the same class
string an entirely unknown status receives — because neither has a
dedicated case in the switch. -/
theorem statusTier_planned_inProgress_default :
    getStatusColor "planned" = "bg-gradient-to-r from-slate-400 to-slate-500 text-white" ∧
    getStatusColor "in_progress" = "bg-gradient-to-r from-slate-400 to-slate-500 text-white" ∧
    getStatusColor "planned" = getStatusColor "some_status_outside_the_enum" ∧
    getStatusColor "in_progress" = getStatusColor "some_status_outside_the_enum" :=
  ⟨rfl, rfl, rfl, rfl⟩

/-- Claim C8: `getStatusText` is total on status strings — when the
translation resources define a label for the status it returns that label,
and for any status key the resources do not define it falls back to the
upper-cased raw status string; it never fails. -/
theorem resolveStatusLabel_total_fallback (tr : List (String × String)) (s : String) :
    (List.lookup ("statuses." ++ s) tr = none → getStatusText tr s = jsToUpper s) ∧
    (∀ lbl, List.lookup ("statuses." ++ s) tr = some lbl → getStatusText tr s = lbl) := by
  unfold getStatusText translate
  exact ⟨fun h => by rw [h], fun lbl h => by rw [h]⟩

/-- Witness for C8: a status missing from the resources is rendered
upper-cased, and a status present in the resources gets its label. -/
theorem resolveStatusLabel_total_fallback_witness :
    getStatusText [("statuses.approved", "Approved")] "mystery_status" = jsToUpper "mystery_status" ∧
    getStatusText [("statuses.approved", "Approved")] "approved" = "Approved" :=
  ⟨(resolveStatusLabel_total_fallback [("statuses.approved", "Approved")] "mystery_status").1 rfl,
   (resolveStatusLabel_total_fallback [("statuses.approved", "Approved")] "approved").2
     "Approved" rfl⟩

/-- Claim C3: for every record id, confirming a revisit with an empty
inspector selection fails fast with the validation error, performs zero
store interactions, and leaves the record set unchanged. -/
theorem reassignForRevisit_empty_inspector_fails_fast
    (reassignOp : String → String → List Inspection → List Inspection)
    (revisitInspectionId : String) (store : List Inspection) :
    (handleConfirmRevisit reassignOp revisitInspectionId "" store).validationError =
      some "Please select an inspector for revisit" ∧
    (handleConfirmRevisit reassignOp revisitInspectionId "" store).storeCalls = [] ∧
    (handleConfirmRevisit reassignOp revisitInspectionId "" store).store = store :=
  ⟨rfl, rfl, rfl⟩

/-- Claim C6: the aggregation counters of a dashboard render are computed
over the unfiltered record set and are independent of every active filter
criterion — two renders with arbitrarily different criteria (and even
different translation resources, locale formatters and category lists)
yield identical counters and completion rate. -/
theorem counters_independent_of_filters
    (tr₁ tr₂ : List (String × String)) (fmt₁ fmt₂ : String → String)
    (cats₁ cats₂ : List Category) (st₁ st₂ sc₁ sc₂ ss₁ ss₂ : String)
    (cf₁ cf₂ : ColumnFilters) (l : List Inspection) :
    (dashboardView tr₁ fmt₁ cats₁ st₁ sc₁ ss₁ cf₁ l).counts =
      (dashboardView tr₂ fmt₂ cats₂ st₂ sc₂ ss₂ cf₂ l).counts ∧
    (dashboardView tr₁ fmt₁ cats₁ st₁ sc₁ ss₁ cf₁ l).completionRate =
      (dashboardView tr₂ fmt₂ cats₂ st₂ sc₂ ss₂ cf₂ l).completionRate ∧
    (dashboardView tr₁ fmt₁ cats₁ st₁ sc₁ ss₁ cf₁ l).counts = getStatusCounts l ∧
    (dashboardView tr₁ fmt₁ cats₁ st₁ sc₁ ss₁ cf₁ l).completionRate = getCompletionRate l :=
  ⟨rfl, rfl, rfl, rfl⟩

/-- Claim C9: completing an inspection rewrites the targeted record's
status to `approved` — from any prior status, with no `submitted`
precondition — and touches no other field of that record; records with a
different id are left in the set untouched. -/
theorem completeInspection_sets_approved_frame (inspectionId : String)
    (store : List Inspection) :
    (∀ r, r ∈ store → r.id = inspectionId →
      ∃ r', r' ∈ completeInspectionUpdate inspectionId store ∧
        r'.status = "approved" ∧
        r'.id = r.id ∧
        r'.inspection_number = r.inspection_number ∧
        r'.category_id = r.category_id ∧
        r'.inspector_id = r.inspector_id ∧
        r'.location_name = r.location_name ∧
        r'.latitude = r.latitude ∧
        r'.longitude = r.longitude ∧
        r'.address = r.address ∧
        r'.planned_date = r.planned_date ∧
        r'.inspection_date = r.inspection_date ∧
        r'.form_data = r.form_data ∧
        r'.is_compliant = r.is_compliant ∧
        r'.requires_revisit = r.requires_revisit ∧
        r'.created_at = r.created_at ∧
        r'.updated_at = r.updated_at ∧
        r'.filled_by_name = r.filled_by_name ∧
        r'.anganwadi_forms = r.anganwadi_forms ∧
        r'.photos = r.photos) ∧
    (∀ r, r ∈ store → r.id ≠ inspectionId →
      r ∈ completeInspectionUpdate inspectionId store) := by
  constructor
  · intro r hr hid
    refine ⟨{ r with status := "approved" }, ?_, rfl, rfl, rfl, rfl, rfl, rfl, rfl, rfl,
      rfl, rfl, rfl, rfl, rfl, rfl, rfl, rfl, rfl, rfl, rfl⟩
    refine List.mem_map.mpr ⟨r, hr, ?_⟩
    simp [hid]
  · intro r hr hne
    refine List.mem_map.mpr ⟨r, hr, ?_⟩
    simp [hne]

/-- Witness for C9: a concrete `rejected` record — which never passed
through `submitted` — is force-completed, and an unrelated record stays. -/
theorem completeInspection_sets_approved_frame_witness :
    (∃ r', r' ∈ completeInspectionUpdate "i1"
        [sampleInspection "i1" "rejected", sampleInspection "i2" "draft"] ∧
      r'.status = "approved" ∧
      r'.id = (sampleInspection "i1" "rejected").id ∧
      r'.inspection_number = (sampleInspection "i1" "rejected").inspection_number ∧
      r'.category_id = (sampleInspection "i1" "rejected").category_id ∧
      r'.inspector_id = (sampleInspection "i1" "rejected").inspector_id ∧
      r'.location_name = (sampleInspection "i1" "rejected").location_name ∧
      r'.latitude = (sampleInspection "i1" "rejected").latitude ∧
      r'.longitude = (sampleInspection "i1" "rejected").longitude ∧
      r'.address = (sampleInspection "i1" "rejected").address ∧
      r'.planned_date = (sampleInspection "i1" "rejected").planned_date ∧
      r'.inspection_date = (sampleInspection "i1" "rejected").inspection_date ∧
      r'.form_data = (sampleInspection "i1" "rejected").form_data ∧
      r'.is_compliant = (sampleInspection "i1" "rejected").is_compliant ∧
      r'.requires_revisit = (sampleInspection "i1" "rejected").requires_revisit ∧
      r'.created_at = (sampleInspection "i1" "rejected").created_at ∧
      r'.updated_at = (sampleInspection "i1" "rejected").updated_at ∧
      r'.filled_by_name = (sampleInspection "i1" "rejected").filled_by_name ∧
      r'.anganwadi_forms = (sampleInspection "i1" "rejected").anganwadi_forms ∧
      r'.photos = (sampleInspection "i1" "rejected").photos) ∧
    sampleInspection "i2" "draft" ∈ completeInspectionUpdate "i1"
      [sampleInspection "i1" "rejected", sampleInspection "i2" "draft"] :=
  ⟨(completeInspection_sets_approved_frame "i1"
      [sampleInspection "i1" "rejected", sampleInspection "i2" "draft"]).1
      (sampleInspection "i1" "rejected") (by simp) rfl,
   (completeInspection_sets_approved_frame "i1"
      [sampleInspection "i1" "rejected", sampleInspection "i2" "draft"]).2
      (sampleInspection "i2" "draft") (by simp) (by decide)⟩

/-- Claim C1: `getFilteredInspections` is exactly the stable filter of the
input records by the conjunction of the nine axis predicates: the output is
a sublist of the input (order preserved, membership a subset), a record is
in the output iff it is in the input and every axis matches, and each axis
matches everything when its criterion is empty. -/
theorem filterRecords_is_stable_conjunctive_filter (tr : List (String × String))
    (fmtDate : String → String) (categories : List Category)
    (searchTerm selectedCategory selectedStatus : String) (cf : ColumnFilters)
    (l : List Inspection) :
    getFilteredInspections tr fmtDate categories
        searchTerm selectedCategory selectedStatus cf l =
      l.filter (passesAllAxes tr fmtDate categories
        searchTerm selectedCategory selectedStatus cf) ∧
    List.Sublist (getFilteredInspections tr fmtDate categories
      searchTerm selectedCategory selectedStatus cf l) l ∧
    (∀ i, i ∈ getFilteredInspections tr fmtDate categories
        searchTerm selectedCategory selectedStatus cf l ↔
      i ∈ l ∧ passesAllAxes tr fmtDate categories
        searchTerm selectedCategory selectedStatus cf i = true) ∧
    (∀ i, matchesSearchAxis "" i = true) ∧
    (∀ i, matchesCategoryAxis "" i = true) ∧
    (∀ i, matchesStatusAxis "" i = true) ∧
    (∀ i, matchesInspectionNumberAxis "" i = true) ∧
    (∀ i, matchesLocationAxis "" i = true) ∧
    (∀ i, matchesCategoryColumnAxis tr categories "" i = true) ∧
    (∀ i, matchesStatusColumnAxis tr "" i = true) ∧
    (∀ i, matchesDateAxis fmtDate "" i = true) ∧
    (∀ i, matchesFilledByAxis "" i = true) :=
  ⟨rfl, List.filter_sublist l, fun _ => List.mem_filter,
   fun _ => rfl, fun _ => rfl, fun _ => rfl, fun _ => rfl, fun _ => rfl,
   fun _ => rfl, fun _ => rfl, fun _ => rfl, fun _ => rfl⟩

/-- Claim C7: filtering with all-empty criteria (empty search term, empty
category and status selections, every per-column filter empty) returns the
record list unchanged, in membership and order. -/
theorem filterRecords_all_empty_identity (tr : List (String × String))
    (fmtDate : String → String) (categories : List Category) (l : List Inspection) :
    getFilteredInspections tr fmtDate categories "" "" "" emptyColumnFilters l = l := by
  unfold getFilteredInspections
  refine List.filter_eq_self.mpr fun i _ => ?_
  simp [emptyColumnFilters]

/-- Helper: the three bucket indicators of a status sum to the indicator of
membership in the five statuses covered by the display buckets (pending ∪
completed ∪ submitted); in particular the buckets are pairwise disjoint. -/
lemma bucketIndicator_eq (s : String) :
    ((if (["planned", "in_progress", "draft"] : List String).contains s then (1 : ℕ) else 0)
      + (if s == "approved" then (1 : ℕ) else 0)
      + (if s == "submitted" then (1 : ℕ) else 0))
    = if s ∈ (["planned", "in_progress", "draft", "approved", "submitted"] : List String)
      then 1 else 0 := by
  by_cases h : s ∈ (["planned", "in_progress", "draft", "approved", "submitted"] : List String)
  · simp only [List.mem_cons, List.not_mem_nil, or_false] at h
    rcases h with h | h | h | h | h <;> subst h <;> decide
  · simp only [List.mem_cons, List.not_mem_nil, or_false, not_or] at h
    obtain ⟨h1, h2, h3, h4, h5⟩ := h
    have hc : (["planned", "in_progress", "draft"] : List String).contains s = false := by
      simp [List.contains, List.elem_iff, h1, h2, h3]
    simp [hc, h4, h5, List.mem_cons, h1, h2, h3]

/-- Helper: a filtered list's length is the sum of the pointwise indicator. -/
lemma length_filter_eq_sum_indicator (p : Inspection → Bool) (l : List Inspection) :
    (l.filter p).length = (l.map fun i => if p i then (1 : ℕ) else 0).sum := by
  induction l with
  | nil => rfl
  | cons x xs ih =>
    by_cases h : p x <;> simp [List.filter_cons, h, ih, Nat.add_comm]

/-- Helper: summing a 0/1 indicator over a list is at most the length, with
equality exactly when the indicated predicate holds of every element. -/
lemma sum_indicator_spec (P : Inspection → Prop) [DecidablePred P] (l : List Inspection) :
    ((l.map fun i => if P i then (1 : ℕ) else 0).sum ≤ l.length) ∧
    (((l.map fun i => if P i then (1 : ℕ) else 0).sum = l.length) ↔ ∀ i ∈ l, P i) := by
  induction l with
  | nil => simp
  | cons x xs ih =>
    obtain ⟨ih1, ih2⟩ := ih
    rw [List.map_cons, List.sum_cons, List.length_cons, List.forall_mem_cons]
    by_cases h : P x
    · rw [if_pos h]
      refine ⟨by omega, ?_⟩
      constructor
      · intro he
        exact ⟨h, ih2.mp (by omega)⟩
      · rintro ⟨-, hall⟩
        have := ih2.mpr hall
        omega
    · rw [if_neg h]
      refine ⟨by omega, ?_⟩
      constructor
      · intro he
        omega
      · rintro ⟨hx, -⟩
        exact absurd hx h

/-- Helper: the three bucket counters sum to the number of records whose
status lies in the five bucketed statuses. -/
lemma statusCounts_bucket_sum (l : List Inspection) :
    (getStatusCounts l).pending + (getStatusCounts l).completed
        + (getStatusCounts l).submitted
      = (l.map fun i =>
          if i.status ∈ (["planned", "in_progress", "draft", "approved", "submitted"] :
              List String)
          then (1 : ℕ) else 0).sum := by
  show (l.filter fun i =>
        (["planned", "in_progress", "draft"] : List String).contains i.status).length
      + (l.filter fun i => i.status == "approved").length
      + (l.filter fun i => i.status == "submitted").length = _
  rw [length_filter_eq_sum_indicator, length_filter_eq_sum_indicator,
    length_filter_eq_sum_indicator]
  induction l with
  | nil => rfl
  | cons x xs ih =>
    simp only [List.map_cons, List.sum_cons]
    have hx := bucketIndicator_eq x.status
    omega

/-- Claim C4: for every record set the counters satisfy
`pending + completed + submitted ≤ total`, with equality exactly when every
record's status lies in the five statuses
planned, in_progress, draft, approved, submitted. -/
theorem counters_bucket_sum_le_total (l : List Inspection) :
    ((getStatusCounts l).pending + (getStatusCounts l).completed
        + (getStatusCounts l).submitted ≤ (getStatusCounts l).total) ∧
    ((getStatusCounts l).pending + (getStatusCounts l).completed
          + (getStatusCounts l).submitted = (getStatusCounts l).total ↔
      ∀ i ∈ l, i.status ∈ (["planned", "in_progress", "draft", "approved", "submitted"] :
        List String)) := by
  have htotal : (getStatusCounts l).total = l.length := rfl
  have hspec := sum_indicator_spec
    (fun i => i.status ∈ (["planned", "in_progress", "draft", "approved", "submitted"] :
      List String)) l
  rw [statusCounts_bucket_sum, htotal]
  exact hspec

/-- Witness for C4: on the spec's sample set (draft, approved, submitted,
approved) the bucket sum reaches the total, exercising the equality
direction of the characterization. -/
theorem counters_bucket_sum_le_total_witness :
    (getStatusCounts [sampleInspection "a" "draft", sampleInspection "b" "approved",
        sampleInspection "c" "submitted", sampleInspection "d" "approved"]).pending
      + (getStatusCounts [sampleInspection "a" "draft", sampleInspection "b" "approved",
        sampleInspection "c" "submitted", sampleInspection "d" "approved"]).completed
      + (getStatusCounts [sampleInspection "a" "draft", sampleInspection "b" "approved",
        sampleInspection "c" "submitted", sampleInspection "d" "approved"]).submitted
    = (getStatusCounts [sampleInspection "a" "draft", sampleInspection "b" "approved",
        sampleInspection "c" "submitted", sampleInspection "d" "approved"]).total :=
  (counters_bucket_sum_le_total [sampleInspection "a" "draft",
      sampleInspection "b" "approved", sampleInspection "c" "submitted",
      sampleInspection "d" "approved"]).2.mpr (by decide)

/-- Counterexample to claim C5 as stated: under a locale that formats dates
with a month name ("Oct 11, 2026"), the non-empty date-column filter "oct"
matches the displayed date case-insensitively — as the claim's wording
requires — yet the source's date axis rejects the record (it compares
without lowering case) and the record is filtered out of the view. -/
theorem dateColumnFilter_not_case_insensitive :
    matchesDateAxisSpecWording (fun _ => "Oct 11, 2026") "oct" sampleDatedInspection = true ∧
    matchesDateAxis (fun _ => "Oct 11, 2026") "oct" sampleDatedInspection = false ∧
    getFilteredInspections [] (fun _ => "Oct 11, 2026") [] "" "" ""
      { emptyColumnFilters with date := "oct" } [sampleDatedInspection] = [] := by
  refine ⟨by decide, by decide, by decide⟩

/-- Claim C5 (amended): every non-empty per-column filter is a substring
match against the corresponding derived display value — case-insensitive
for inspection number, location, the resolved localized category name, the
resolved status label and the filled-by name, but case-sensitive for the
locale-formatted date string of `inspection_date` falling back to
`planned_date` (a record with no truthy date never matches a non-empty
date filter). -/
theorem columnFilters_substring_semantics (tr : List (String × String))
    (fmtDate : String → String) (categories : List Category) (f : String)
    (i : Inspection) (hf : f ≠ "") :
    matchesInspectionNumberAxis f i = strIncludes (jsToLower i.inspection_number) (jsToLower f) ∧
    matchesLocationAxis f i = strIncludes (jsToLower i.location_name) (jsToLower f) ∧
    matchesCategoryColumnAxis tr categories f i
      = strIncludes (jsToLower (categoryDisplayName tr categories i)) (jsToLower f) ∧
    matchesStatusColumnAxis tr f i
      = strIncludes (jsToLower (getStatusText tr i.status)) (jsToLower f) ∧
    matchesDateAxis fmtDate f i =
      (match jsOrString i.inspection_date i.planned_date with
       | some d => !(d == "") && strIncludes (fmtDate d) f
       | none => false) ∧
    matchesFilledByAxis f i =
      (match i.filled_by_name with
       | some n => strIncludes (jsToLower n) (jsToLower f)
       | none => false) := by
  have hb : (f == "") = false := by simp [hf]
  unfold matchesInspectionNumberAxis matchesLocationAxis matchesCategoryColumnAxis
    matchesStatusColumnAxis matchesDateAxis matchesFilledByAxis
  rw [hb]
  simp

/-- Witness for the amended C5: a concrete non-empty inspection-number
filter reduces to the case-insensitive substring test. -/
theorem columnFilters_substring_semantics_witness :
    matchesInspectionNumberAxis "fims" (sampleInspection "w5" "draft")
      = strIncludes (jsToLower (sampleInspection "w5" "draft").inspection_number)
          (jsToLower "fims") :=
  (columnFilters_substring_semantics [] (fun d => d) [] "fims"
    (sampleInspection "w5" "draft") (by decide)).1

/-- Counterexample to claim C2 as stated: on 23 approved records out of 40
the exact percentage is 57.5, whose round-half-up value is 58, but the
dashboard computes 57 — the binary64 value of `(23/40)*100` is
slightly below 57.5, so `Math.round` rounds down. -/
theorem completionRate_not_round_half_up :
    (getStatusCounts rate23of40Records).completed = 23 ∧
    (getStatusCounts rate23of40Records).total = 40 ∧
    getCompletionRate rate23of40Records = 57 ∧
    round ((((getStatusCounts rate23of40Records).completed : ℚ) /
      (getStatusCounts rate23of40Records).total) * 100) = 58 := by
  have h1 : getStatusCounts rate23of40Records =
      { total := 40, pending := 17, completed := 23, submitted := 0 } := by decide
  refine ⟨by rw [h1], by rw [h1], ?_, ?_⟩
  · unfold getCompletionRate
    rw [h1]
    norm_num
    rw [show flFrac 23 40 = ⟨5179139571476070, -1⟩ from by decide]
    rw [show jsMul100 ⟨5179139571476070, -1⟩ = ⟨8092405580431359, 5⟩ from by decide]
    unfold mathRound F64.toRat
    norm_num
  · rw [h1, round_eq]
    norm_num

/-- Helper: the fuel-driven binary logarithm is a lower bound witness:
`2 ^ log2 n ≤ n` for nonzero `n`. -/
lemma log2Nat_le (fuel : ℕ) : ∀ n : ℕ, n ≤ fuel → n ≠ 0 → 2 ^ log2Nat fuel n ≤ n := by
  induction fuel with
  | zero => intro n h1 h2; omega
  | succ f ih =>
    intro n h1 h2
    unfold log2Nat
    by_cases h3 : n < 2
    · rw [if_pos h3]
      omega
    · rw [if_neg h3]
      have hrec : 2 ^ log2Nat f (n / 2) ≤ n / 2 := ih (n / 2) (by omega) (by omega)
      have hp : 2 ^ (log2Nat f (n / 2) + 1) = 2 ^ log2Nat f (n / 2) * 2 := pow_succ 2 _
      omega

/-- Helper: the fuel-driven binary logarithm is an upper bound witness:
`n < 2 ^ (log2 n + 1)`. -/
lemma lt_log2Nat (fuel : ℕ) : ∀ n : ℕ, n ≤ fuel → n < 2 ^ (log2Nat fuel n + 1) := by
  induction fuel with
  | zero =>
    intro n h1
    have : n = 0 := by omega
    subst this
    decide
  | succ f ih =>
    intro n h1
    unfold log2Nat
    by_cases h3 : n < 2
    · rw [if_pos h3]
      omega
    · rw [if_neg h3]
      have hrec : n / 2 < 2 ^ (log2Nat f (n / 2) + 1) := ih (n / 2) (by omega)
      have hp : 2 ^ (log2Nat f (n / 2) + 1 + 1) = 2 ^ (log2Nat f (n / 2) + 1) * 2 :=
        pow_succ 2 _
      omega

/-- Helper: `2 ^ natLog2 n ≤ n` for nonzero `n`. -/
lemma natLog2_le (n : ℕ) (hn : n ≠ 0) : 2 ^ natLog2 n ≤ n :=
  log2Nat_le n n le_rfl hn

/-- Helper: `n < 2 ^ (natLog2 n + 1)`. -/
lemma lt_natLog2 (n : ℕ) : n < 2 ^ (natLog2 n + 1) :=
  lt_log2Nat n n le_rfl

/-- Helper: the binade of `a / b` is a lower bound: `2 ^ binadeOf a b ≤ a/b`. -/
lemma binade_le_frac (a b : ℕ) (ha : a ≠ 0) (hb : b ≠ 0) :
    (2 : ℚ) ^ binadeOf a b ≤ (a : ℚ) / b := by
  have hb0 : (0 : ℚ) < b := by exact_mod_cast Nat.pos_of_ne_zero hb
  unfold binadeOf
  split_ifs with h
  · rw [zpow_sub₀ two_ne_zero, zpow_natCast, zpow_natCast,
      div_le_div_iff₀ (by positivity) hb0]
    calc (2 : ℚ) ^ natLog2 a * b = b * 2 ^ natLog2 a := by ring
      _ ≤ (a : ℚ) * 2 ^ natLog2 b := by exact_mod_cast h
  · have hb2 : (b : ℚ) < 2 ^ (natLog2 b + 1) := by exact_mod_cast lt_natLog2 b
    have ha2 : ((2 : ℚ)) ^ natLog2 a ≤ a := by exact_mod_cast natLog2_le a ha
    have he : (natLog2 a : ℤ) - natLog2 b - 1 = (natLog2 a : ℤ) - ((natLog2 b + 1 : ℕ)) := by
      push_cast
      ring
    rw [he, zpow_sub₀ two_ne_zero, zpow_natCast, zpow_natCast,
      div_le_div_iff₀ (by positivity) hb0]
    calc (2 : ℚ) ^ natLog2 a * b ≤ (a : ℚ) * b := by
          exact mul_le_mul_of_nonneg_right ha2 hb0.le
      _ ≤ (a : ℚ) * 2 ^ (natLog2 b + 1) := by
          exact mul_le_mul_of_nonneg_left hb2.le (by positivity)

/-- Helper: if `a/b < 2^n` then the binade of `a/b` is below `n`. -/
lemma binade_lt (a b : ℕ) (ha : a ≠ 0) (hb : b ≠ 0) {n : ℤ}
    (h : (a : ℚ) / b < 2 ^ n) : binadeOf a b < n := by
  by_contra h2
  push_neg at h2
  have h3 : (2 : ℚ) ^ n ≤ 2 ^ binadeOf a b := zpow_le_zpow_right₀ one_le_two h2
  have h4 := binade_le_frac a b ha hb
  linarith

/-- Helper: scaling a fraction of naturals by an integer power of two. -/
lemma natFrac_scale (a b : ℕ) (hb : b ≠ 0) (k : ℤ) :
    (((a * 2 ^ k.toNat : ℕ)) : ℚ) / (((b * 2 ^ (-k).toNat : ℕ)) : ℚ)
      = ((a : ℚ) / b) * (2 : ℚ) ^ k := by
  have hb0 : (b : ℚ) ≠ 0 := by exact_mod_cast hb
  rcases le_or_lt 0 k with hk | hk
  · have h1 : (-k).toNat = 0 := by omega
    have h2 : ((2 : ℚ)) ^ k = 2 ^ k.toNat := by
      rw [← zpow_natCast]
      congr 1
      omega
    rw [h1, h2]
    push_cast
    field_simp
  · have h1 : k.toNat = 0 := by omega
    have h2 : ((2 : ℚ)) ^ k = ((2 : ℚ) ^ (-k).toNat)⁻¹ := by
      rw [← zpow_natCast, ← zpow_neg]
      congr 1
      omega
    rw [h1, h2]
    push_cast
    have hp : ((2 : ℚ)) ^ (-k).toNat ≠ 0 := by positivity
    field_simp

/-- Helper: round-to-nearest never overshoots by more than half. -/
lemma rneNat_le (n b : ℕ) (hb : b ≠ 0) :
    (rneNat n b : ℚ) ≤ (n : ℚ) / b + 1 / 2 := by
  have hb0 : (0 : ℚ) < b := by exact_mod_cast Nat.pos_of_ne_zero hb
  have h0 : ((n / b : ℕ) : ℚ) * b + ((n % b : ℕ) : ℚ) = (n : ℚ) := by
    have h' : ((b * (n / b) + n % b : ℕ) : ℚ) = (n : ℚ) := by
      exact_mod_cast congrArg (Nat.cast : ℕ → ℚ) (Nat.div_add_mod n b)
    push_cast at h'
    linarith
  have hkey : (n : ℚ) / b = ((n / b : ℕ) : ℚ) + ((n % b : ℕ) : ℚ) / b := by
    field_simp
    linarith
  have hr0 : (0 : ℚ) ≤ ((n % b : ℕ) : ℚ) / b := by positivity
  unfold rneNat
  split_ifs with h1 h2 h3
  · rw [hkey]
    linarith
  · have hhalf : (1 : ℚ) / 2 ≤ ((n % b : ℕ) : ℚ) / b := by
      rw [div_le_div_iff₀ (by norm_num) hb0]
      have : (b : ℚ) < 2 * ((n % b : ℕ) : ℚ) := by exact_mod_cast h2
      linarith
    rw [hkey]
    push_cast
    linarith
  · rw [hkey]
    linarith
  · have hrb : 2 * (n % b) = b := by omega
    have hhalf : ((n % b : ℕ) : ℚ) / b = 1 / 2 := by
      rw [div_eq_div_iff hb0.ne' (by norm_num : (2 : ℚ) ≠ 0)]
      have : (b : ℚ) = 2 * ((n % b : ℕ) : ℚ) := by exact_mod_cast hrb.symm
      linarith
    rw [hkey]
    push_cast
    linarith

/-- Helper: the value of a rounded fraction is nonnegative. -/
lemma flFrac_toRat_nonneg (a b : ℕ) : 0 ≤ (flFrac a b).toRat := by
  unfold flFrac
  split_ifs with h
  · unfold F64.toRat
    norm_num
  · unfold F64.toRat
    positivity

/-- Helper: rounding the fraction `a / b` to a double overshoots by at most
half a unit in the last place: `flFrac a b ≤ a/b + 2^(binade - 53)`. -/
lemma flFrac_toRat_le (a b : ℕ) (ha : a ≠ 0) (hb : b ≠ 0) :
    (flFrac a b).toRat ≤ (a : ℚ) / b + (2 : ℚ) ^ (binadeOf a b - 53) := by
  unfold flFrac
  rw [if_neg ha]
  unfold F64.toRat
  have hd : b * 2 ^ (binadeOf a b - 52).toNat ≠ 0 := by
    have := Nat.pos_of_ne_zero hb
    have h2 : 0 < 2 ^ (binadeOf a b - 52).toNat := Nat.pos_pow_of_pos _ (by omega)
    positivity
  have hrne := rneNat_le (a * 2 ^ (52 - binadeOf a b).toNat)
    (b * 2 ^ (binadeOf a b - 52).toNat) hd
  have hscale := natFrac_scale a b hb (52 - binadeOf a b)
  rw [show -(52 - binadeOf a b) = binadeOf a b - 52 from by ring] at hscale
  rw [hscale] at hrne
  have hpos : (0 : ℚ) < (2 : ℚ) ^ (binadeOf a b - 52) := by positivity
  calc ((rneNat (a * 2 ^ (52 - binadeOf a b).toNat)
          (b * 2 ^ (binadeOf a b - 52).toNat) : ℕ) : ℚ) * 2 ^ (binadeOf a b - 52)
      ≤ ((a : ℚ) / b * 2 ^ (52 - binadeOf a b) + 1 / 2) * 2 ^ (binadeOf a b - 52) := by
        exact mul_le_mul_of_nonneg_right hrne hpos.le
    _ = (a : ℚ) / b * ((2 : ℚ) ^ (52 - binadeOf a b) * 2 ^ (binadeOf a b - 52))
          + 2 ^ (binadeOf a b - 52) * 2 ^ ((-1 : ℤ)) := by
        rw [zpow_neg_one]
        ring
    _ = (a : ℚ) / b + (2 : ℚ) ^ (binadeOf a b - 53) := by
        rw [← zpow_add₀ (two_ne_zero (α := ℚ)), ← zpow_add₀ (two_ne_zero (α := ℚ)),
          show 52 - binadeOf a b + (binadeOf a b - 52) = 0 from by ring,
          show binadeOf a b - 52 + -1 = binadeOf a b - 53 from by ring]
        norm_num

/-- Helper: bounds for `Math.round` of the binary64 evaluation of
`(c / t) * 100` when `c ≤ t`: the result lies in `[0, 100]`. -/
lemma mathRound_jsMul100_bounds (c t : ℕ) (ht : t ≠ 0) (hct : c ≤ t) :
    0 ≤ mathRound (jsMul100 (flFrac c t)).toRat ∧
    mathRound (jsMul100 (flFrac c t)).toRat ≤ 100 := by
  by_cases hc : c = 0
  · subst hc
    rw [show flFrac 0 t = ⟨0, 0⟩ from by unfold flFrac; rw [if_pos rfl]]
    rw [show jsMul100 ⟨0, 0⟩ = ⟨0, 0⟩ from by
      unfold jsMul100
      norm_num
      unfold flFrac
      rw [if_pos rfl]]
    unfold mathRound F64.toRat
    norm_num
  · set x := flFrac c t with hxdef
    have hxe : x.e = binadeOf c t := by rw [hxdef]; unfold flFrac; rw [if_neg hc]
    -- bounds on the first rounding
    have hA : x.toRat ≤ (c : ℚ) / t + (2 : ℚ) ^ (binadeOf c t - 53) := by
      rw [hxdef]
      exact flFrac_toRat_le c t hc ht
    have hB : 0 ≤ x.toRat := by rw [hxdef]; exact flFrac_toRat_nonneg c t
    have ht0 : (0 : ℚ) < t := by exact_mod_cast Nat.pos_of_ne_zero ht
    have hC : (c : ℚ) / t ≤ 1 := by
      rw [div_le_one ht0]
      exact_mod_cast hct
    have hD : binadeOf c t ≤ 0 := by
      have h2 : ((c : ℚ)) / t < 2 ^ (1 : ℤ) := by
        rw [show ((2 : ℚ)) ^ (1 : ℤ) = 2 from by norm_num]
        linarith
      have := binade_lt c t hc ht h2
      omega
    have hE : x.toRat ≤ 1 + (2 : ℚ) ^ ((-53 : ℤ)) := by
      have hmono : ((2 : ℚ)) ^ (binadeOf c t - 53) ≤ 2 ^ ((-53 : ℤ)) :=
        zpow_le_zpow_right₀ one_le_two (by omega)
      linarith
    -- the product with 100, as a fraction of naturals
    by_cases hm : x.m = 0
    · rw [show jsMul100 x = ⟨0, 0⟩ from by
        unfold jsMul100
        rw [hm]
        norm_num
        unfold flFrac
        rw [if_pos rfl]]
      unfold mathRound F64.toRat
      norm_num
    · have hb' : (2 : ℕ) ^ (52 - x.e).toNat ≠ 0 := by positivity
      have ha' : x.m * 100 * 2 ^ (x.e - 52).toNat ≠ 0 := by positivity
      have hbridge : ((x.m * 100 * 2 ^ (x.e - 52).toNat : ℕ) : ℚ)
          / ((2 ^ (52 - x.e).toNat : ℕ) : ℚ) = x.toRat * 100 := by
        have h := natFrac_scale (x.m * 100) 1 one_ne_zero (x.e - 52)
        rw [show -(x.e - 52) = 52 - x.e from by ring, one_mul] at h
        rw [h]
        unfold F64.toRat
        push_cast
        ring
      have hv : ((x.m * 100 * 2 ^ (x.e - 52).toNat : ℕ) : ℚ)
          / ((2 ^ (52 - x.e).toNat : ℕ) : ℚ) ≤ 100 + 100 * (2 : ℚ) ^ ((-53 : ℤ)) := by
        rw [hbridge]
        linarith
      have hvpos : (0 : ℚ) ≤ ((x.m * 100 * 2 ^ (x.e - 52).toNat : ℕ) : ℚ)
          / ((2 ^ (52 - x.e).toNat : ℕ) : ℚ) := by positivity
      have h53small : ((2 : ℚ)) ^ ((-53 : ℤ)) ≤ 2 ^ ((-9 : ℤ)) :=
        zpow_le_zpow_right₀ one_le_two (by omega)
      have h9 : ((2 : ℚ)) ^ ((-9 : ℤ)) = 1 / 512 := by norm_num
      have hvlt : ((x.m * 100 * 2 ^ (x.e - 52).toNat : ℕ) : ℚ)
          / ((2 ^ (52 - x.e).toNat : ℕ) : ℚ) < 2 ^ (7 : ℤ) := by
        rw [show ((2 : ℚ)) ^ (7 : ℤ) = 128 from by norm_num]
        rw [h9] at h53small
        linarith
      have he2 : binadeOf (x.m * 100 * 2 ^ (x.e - 52).toNat) (2 ^ (52 - x.e).toNat) ≤ 6 := by
        have := binade_lt _ _ ha' hb' hvlt
        omega
      have hy : (jsMul100 x).toRat
          ≤ ((x.m * 100 * 2 ^ (x.e - 52).toNat : ℕ) : ℚ) / ((2 ^ (52 - x.e).toNat : ℕ) : ℚ)
            + (2 : ℚ) ^ (binadeOf (x.m * 100 * 2 ^ (x.e - 52).toNat)
                (2 ^ (52 - x.e).toNat) - 53) := by
        unfold jsMul100
        exact flFrac_toRat_le _ _ ha' hb'
      have hy0 : 0 ≤ (jsMul100 x).toRat := by
        unfold jsMul100
        exact flFrac_toRat_nonneg _ _
      have h47small : ((2 : ℚ)) ^ (binadeOf (x.m * 100 * 2 ^ (x.e - 52).toNat)
          (2 ^ (52 - x.e).toNat) - 53) ≤ 2 ^ ((-9 : ℤ)) :=
        zpow_le_zpow_right₀ one_le_two (by omega)
      have hybound : (jsMul100 x).toRat < 100 + 1 / 2 := by
        rw [h9] at h53small h47small
        linarith
      constructor
      · unfold mathRound
        refine Int.le_floor.mpr ?_
        push_cast
        linarith
      · unfold mathRound
        have : ⌊(jsMul100 x).toRat + 1 / 2⌋ < 101 := by
          refine Int.floor_lt.mpr ?_
          push_cast
          linarith
        omega

/-- Claim C2 (amended): the completion rate is `Math.round` applied to the
binary64 evaluation of `(completed / total) * 100` (which can differ from
exact round-half-up, see the 23-of-40 counterexample), is 0 when the total
is 0, and always lies in the interval [0, 100]. -/
theorem completionRate_float_round_and_bounds (l : List Inspection) :
    getCompletionRate l =
      (if (getStatusCounts l).total = 0 then 0
       else mathRound (jsMul100 (flFrac (getStatusCounts l).completed
         (getStatusCounts l).total)).toRat) ∧
    0 ≤ getCompletionRate l ∧ getCompletionRate l ≤ 100 := by
  refine ⟨rfl, ?_⟩
  show 0 ≤ (if (getStatusCounts l).total = 0 then 0
      else mathRound (jsMul100 (flFrac (getStatusCounts l).completed
        (getStatusCounts l).total)).toRat) ∧
    (if (getStatusCounts l).total = 0 then 0
      else mathRound (jsMul100 (flFrac (getStatusCounts l).completed
        (getStatusCounts l).total)).toRat) ≤ 100
  by_cases ht : (getStatusCounts l).total = 0
  · rw [if_pos ht]
    norm_num
  · rw [if_neg ht]
    exact mathRound_jsMul100_bounds (getStatusCounts l).completed
      (getStatusCounts l).total ht (List.length_filter_le _ l)

end FIMS
